import Mathlib

/-!
# Verification of the ENEM 2024 dashboard preprocessing pipeline

A shallow embedding, in Lean 4, of the offline aggregation pipeline of the
`Painel-Streamlit-ENEM-2024` repository, together with theorems settling the
frozen specification claims.

Conventions of the embedding:
* a pandas `DataFrame` is a schema (which columns are present) together with
  a list of rows; a cell holds `Option` values (`none` = NaN / missing);
* numeric cells are rationals (`ℚ`); pandas float semantics that matter here
  (skipping NaN in `mean`/`sum`, `dropna`) are made explicit;
* `groupby(cols)` with the pandas default `dropna=True` keeps only rows whose
  grouping cells are all non-null; `dropna=False` keeps every row.  Group
  keys are collected as `dedup` of the per-row keys (pandas sorts the groups,
  but no claim here depends on group order);
* a script that can raise is embedded as a function into `Except String`.
-/

namespace Enem

/-! ## Record Normalizer (`src/data_loader.py`, `preprocess_enem_df`) -/

/-- One raw ENEM record (`RESULTADOS_2024`), restricted to the columns the
pipeline reads.  Every cell is optional: `none` models a NaN / missing cell. -/
structure RawRow where
  notaFinal : Option ℚ
  cn : Option ℚ
  ch : Option ℚ
  lc : Option ℚ
  mt : Option ℚ
  red : Option ℚ
  dep : Option ℤ
  statusRed : Option ℤ
  loc : Option ℤ
  municipio : Option String
  uf : Option String
  schoolId : Option ℤ
  schoolName : Option String
deriving DecidableEq, Repr

/-- Which optional source columns are present in the raw DataFrame's schema
(pandas distinguishes an absent column from a column of NaNs). -/
structure Schema where
  hasNotaFinal : Bool
  hasCN : Bool
  hasCH : Bool
  hasLC : Bool
  hasMT : Bool
  hasRed : Bool
  hasDep : Bool
  hasStatusRed : Bool
  hasLoc : Bool
  hasMunicipio : Bool
  hasUf : Bool
deriving DecidableEq, Repr

/-- `mapa_dependencia = {1: "Federal", 2: "Estadual", 3: "Municipal", 4: "Privada"}`;
`Series.map` sends any unmapped code to NaN. -/
def mapaDependencia (i : ℤ) : Option String :=
  if i = 1 then some "Federal"
  else if i = 2 then some "Estadual"
  else if i = 3 then some "Municipal"
  else if i = 4 then some "Privada"
  else none

/-- `mapa_status` for `TP_STATUS_REDACAO` (codes 1,2,3,4,5,6,9). -/
def mapaStatus (i : ℤ) : Option String :=
  if i = 1 then some "1. Sem Problemas (Válida)"
  else if i = 2 then some "2. Anulada"
  else if i = 3 then some "3. Cópia T. Motivador"
  else if i = 4 then some "4. Não Atribuída/Em Branco"
  else if i = 5 then some "5. Zero por Critério (Grave)"
  else if i = 6 then some "6. Cancelada"
  else if i = 9 then some "7. Outras Causas/Fuga"
  else none

/-- `mapa_localizacao = {1: "Urbana", 2: "Rural"}`. -/
def mapaLocalizacao (i : ℤ) : Option String :=
  if i = 1 then some "Urbana" else if i = 2 then some "Rural" else none

/-- `astype(str)` on an optional string cell: pandas renders NaN as `"nan"`. -/
def strOrNan : Option String → String
  | some s => s
  | none => "nan"

/-- The subject-score cells of a row that sit in a present column and are
non-null: the values `df[available_cols].mean(axis=1)` averages for the row
(`colunas_notas` order: CN, CH, LC, MT, REDACAO). -/
def rowSubjectVals (s : Schema) (r : RawRow) : List ℚ :=
  ([(s.hasCN, r.cn), (s.hasCH, r.ch), (s.hasLC, r.lc),
    (s.hasMT, r.mt), (s.hasRed, r.red)]).filterMap
    (fun p => if p.1 then p.2 else none)

/-- `available_cols` is nonempty: at least one subject-score column exists. -/
def anySubject (s : Schema) : Bool :=
  s.hasCN || s.hasCH || s.hasLC || s.hasMT || s.hasRed

/-- The `nota_final` cell after the derivation step of `preprocess_enem_df`:
kept as-is when the column pre-exists; otherwise the row-wise mean of the
available subject scores, skipping NaN (`DataFrame.mean(axis=1)`), which is
NaN when no value is available.  When no subject column exists either, the
column is never created (`none`, and the schema flag stays off). -/
def derivedNotaFinal (s : Schema) (r : RawRow) : Option ℚ :=
  if s.hasNotaFinal then r.notaFinal
  else if anySubject s then
    let vs := rowSubjectVals s r
    if vs.isEmpty then none else some (vs.sum / vs.length)
  else none

/-- A normalized record, after `preprocess_enem_df`: the raw cells the
downstream aggregators still read plus the derived columns. -/
structure NormRow where
  notaFinal : Option ℚ
  cn : Option ℚ
  ch : Option ℚ
  lc : Option ℚ
  mt : Option ℚ
  red : Option ℚ
  tipoEscola : Option String
  statusRedacao : Option String
  localizacao : Option String
  municipioUf : Option String
  uf : Option String
  schoolId : Option ℤ
  schoolName : Option String
deriving DecidableEq, Repr

/-- Schema of the normalized DataFrame: which derived (and carried) columns
exist after `preprocess_enem_df`. -/
structure NormSchema where
  hasNotaFinal : Bool
  hasTipoEscola : Bool
  hasStatusRedacao : Bool
  hasLocalizacao : Bool
  hasMunicipioUf : Bool
  hasUf : Bool
deriving DecidableEq, Repr

/-- Cell-level part of `preprocess_enem_df`: every derivation is guarded by
the presence of its source column(s); a guard that fails leaves the derived
cell absent (`none`) and raises nothing.  `Series.map` sends a null code to a
null label; `astype(str)` renders null as `"nan"` inside `MUNICIPIO_UF`.
(The `CO_UF_ESC` cast and the float/int downcasts of lines 121-127 are
value-preserving storage changes, invisible at this level.) -/
def normalizeRow (s : Schema) (r : RawRow) : NormRow where
  notaFinal := derivedNotaFinal s r
  cn := if s.hasCN then r.cn else none
  ch := if s.hasCH then r.ch else none
  lc := if s.hasLC then r.lc else none
  mt := if s.hasMT then r.mt else none
  red := if s.hasRed then r.red else none
  tipoEscola := if s.hasDep then r.dep.bind mapaDependencia else none
  statusRedacao := if s.hasStatusRed then r.statusRed.bind mapaStatus else none
  localizacao := if s.hasLoc then r.loc.bind mapaLocalizacao else none
  municipioUf :=
    if s.hasMunicipio && s.hasUf
    then some (strOrNan r.municipio ++ " - " ++ strOrNan r.uf) else none
  uf := if s.hasUf then r.uf else none
  schoolId := r.schoolId
  schoolName := r.schoolName

/-- Schema after `preprocess_enem_df`. -/
def normalizeSchema (s : Schema) : NormSchema where
  hasNotaFinal := s.hasNotaFinal || anySubject s
  hasTipoEscola := s.hasDep
  hasStatusRedacao := s.hasStatusRed
  hasLocalizacao := s.hasLoc
  hasMunicipioUf := s.hasMunicipio && s.hasUf
  hasUf := s.hasUf

/-- `preprocess_enem_df` (src/data_loader.py lines 76-129): derive columns
row-wise, then — when a `nota_final` column exists after derivation — drop
every row whose `nota_final` is null (`df.dropna(subset=["nota_final"])`). -/
def preprocessEnemDf (s : Schema) (rows : List RawRow) :
    NormSchema × List NormRow :=
  (normalizeSchema s,
   if (normalizeSchema s).hasNotaFinal
   then (rows.map (normalizeRow s)).filter (fun r => r.notaFinal.isSome)
   else rows.map (normalizeRow s))

/-- `load_raw_enem` (preprocess_enem.py lines 31-43): prefer the parquet
file, fall back to the csv, and raise `FileNotFoundError` when neither
exists.  The two `(Schema × List RawRow)` arguments are the DataFrames the
two readers would produce. -/
def loadRawEnem (parquetExists csvExists : Bool)
    (parquetDf csvDf : Schema × List RawRow) :
    Except String (Schema × List RawRow) :=
  if parquetExists then .ok parquetDf
  else if csvExists then .ok csvDf
  else .error
    "Coloque RESULTADOS_2024.csv ou RESULTADOS_2024.parquet na pasta 'data/'."

/-- The normalization pipeline: load the raw source, then normalize. -/
def normalizePipeline (parquetExists csvExists : Bool)
    (parquetDf csvDf : Schema × List RawRow) :
    Except String (NormSchema × List NormRow) :=
  (loadRawEnem parquetExists csvExists parquetDf csvDf).map
    (fun d => preprocessEnemDf d.1 d.2)

/-! ## Dimensional Aggregator (`preprocess_enem.py`, `build_overview_stats`) -/

/-- The metric columns of `DISCIPLINE_OPTIONS` (src/config.py). -/
inductive Metric where
  | notaFinal
  | cn
  | ch
  | lc
  | mt
  | red
deriving DecidableEq, Repr

/-- Read a metric cell from a normalized record. -/
def metricVal : Metric → NormRow → Option ℚ
  | .notaFinal, r => r.notaFinal
  | .cn, r => r.cn
  | .ch, r => r.ch
  | .lc, r => r.lc
  | .mt, r => r.mt
  | .red, r => r.red

/-- `DISCIPLINE_OPTIONS.values()` in its config order. -/
def allMetrics : List Metric :=
  [.notaFinal, .cn, .ch, .lc, .mt, .red]

/-- A fully non-null grouping key `(TIPO_ESCOLA, LOCALIZACAO, SG_UF_ESC)`. -/
abbrev FullKey := String × String × String

/-- The grouping key of a row under `groupby(["TIPO_ESCOLA", "LOCALIZACAO",
"SG_UF_ESC"])` with the pandas default `dropna=True`: `some` exactly when all
three dimension cells are non-null, since such a `groupby` drops every row
with a null key cell. -/
def fullKey (r : NormRow) : Option FullKey :=
  match r.tipoEscola, r.localizacao, r.uf with
  | some t, some l, some u => some (t, l, u)
  | _, _, _ => none

/-- The group of a key: the rows whose (non-null) key cells equal it. -/
def groupRows (rows : List NormRow) (k : FullKey) : List NormRow :=
  rows.filter (fun r => fullKey r = some k)

/-- Named aggregation `(col, "sum")`: pandas sums the non-null cells of the
group (an all-null group sums to 0.0). -/
def metricSum (m : Metric) (g : List NormRow) : ℚ :=
  (g.filterMap (metricVal m)).sum

/-- One output row of `overview_stats.parquet`. -/
structure SummaryRow where
  tipoEscola : String
  localizacao : String
  uf : String
  n : ℕ
  sums : List (Metric × ℚ)
deriving DecidableEq, Repr

/-- The dimension triple a Summary Row carries. -/
def summaryKey (r : SummaryRow) : FullKey :=
  (r.tipoEscola, r.localizacao, r.uf)

/-- `build_overview_stats` (preprocess_enem.py lines 46-56):
`df.groupby(group_cols).agg(n=("nota_final","size"), sum_<col>=(col,"sum"))`.
The `groupby` keeps the pandas default `dropna=True`, so only rows whose
three dimension cells are all non-null reach a group; `"size"` counts every
row of the group and `"sum"` skips null metric cells. -/
def buildOverviewStats (rows : List NormRow) (metricCols : List Metric) :
    List SummaryRow :=
  ((rows.filterMap fullKey).dedup).map (fun k =>
    let g := groupRows rows k
    { tipoEscola := k.1, localizacao := k.2.1, uf := k.2.2,
      n := g.length,
      sums := metricCols.map (fun m => (m, metricSum m g)) })

/-! ## Histogram Builder (`preprocess_enem.py`, `build_overview_hist`) -/

/-- `np.linspace a b num`: `num` evenly spaced points from `a` to `b`,
point `i` being `a + (b - a) * i / (num - 1)`. -/
def linspace (a b : ℚ) (num : ℕ) : List ℚ :=
  (List.range num).map (fun i : ℕ => a + (b - a) * (i : ℚ) / ((num : ℚ) - 1))

/-- `bin_edges = np.linspace(0, 1000, num=41)`. -/
def binEdges : List ℚ := linspace 0 1000 41

/-- The number of histogram bins (length of `counts` in `np.histogram`). -/
def numBins : ℕ := binEdges.length - 1

/-- `np.histogram` membership of value `v` in bin `i` of `edges`: the bins
are the half-open intervals `[edges[i], edges[i+1])`, except that the last
bin also includes its right edge. -/
def inBinEdges (edges : List ℚ) (i : ℕ) (v : ℚ) : Bool :=
  decide (edges.getD i 0 ≤ v) &&
    (if i + 2 = edges.length then decide (v ≤ edges.getD (i + 1) 0)
     else decide (v < edges.getD (i + 1) 0))

/-- One output row of `overview_hist.parquet`. -/
structure BinRow where
  tipoEscola : String
  localizacao : String
  uf : String
  metric : Metric
  binIdx : ℕ
  binLeft : ℚ
  binRight : ℚ
  count : ℕ
deriving DecidableEq, Repr

/-- The dimension triple a Bin Row carries. -/
def binRowKey (r : BinRow) : FullKey :=
  (r.tipoEscola, r.localizacao, r.uf)

/-- The inner loop of `build_overview_hist` for one group and metric: one
record per bin index whose count is non-zero (`if count == 0: continue`),
carrying `bin_left[i]`, `bin_right[i]` and the count. -/
def histBlock (k : FullKey) (m : Metric) (vals : List ℚ) : List BinRow :=
  (List.range numBins).filterMap (fun i =>
    if vals.countP (inBinEdges binEdges i) = 0 then none
    else some
      { tipoEscola := k.1, localizacao := k.2.1, uf := k.2.2, metric := m,
        binIdx := i, binLeft := binEdges.getD i 0,
        binRight := binEdges.getD (i + 1) 0,
        count := vals.countP (inBinEdges binEdges i) })

/-- The non-null values of metric `m` inside group `k`:
`sub[metric].dropna().values`. -/
def groupMetricVals (rows : List NormRow) (k : FullKey) (m : Metric) : List ℚ :=
  (groupRows rows k).filterMap (metricVal m)

/-- `build_overview_hist` (preprocess_enem.py lines 59-99): iterate the
groups of `df.groupby(group_cols)` (pandas default `dropna=True` again), and
per metric skip the group when it has no non-null value
(`if len(vals) == 0: continue`), otherwise emit the non-zero bins. -/
def buildOverviewHist (rows : List NormRow) (metricCols : List Metric) :
    List BinRow :=
  ((rows.filterMap fullKey).dedup).flatMap (fun k =>
    metricCols.flatMap (fun m =>
      if (groupMetricVals rows k m).isEmpty then []
      else histBlock k m (groupMetricVals rows k m)))

/-- The Bin Rows of one (group, metric) combination inside a histogram
artifact. -/
def histFor (hist : List BinRow) (k : FullKey) (m : Metric) : List BinRow :=
  hist.filter (fun r => decide (binRowKey r = k ∧ r.metric = m))

/-! ## School-Level Aggregator (`preprocess_schools.py`) -/

/-- `id_candidates` of `_detect_school_cols`. -/
def idCandidates : List String :=
  ["CO_ESCOLA", "ID_ESCOLA", "COD_ESCOLA", "ESCOLA_ID", "CO_ENTIDADE"]

/-- `name_candidates` of `_detect_school_cols`. -/
def nameCandidates : List String :=
  ["NO_ESCOLA", "NOME_ESCOLA", "NM_ESCOLA"]

/-- `next((c for c in id_candidates if c in df.columns), None)`: the first
present identifier candidate. -/
def detectSchoolIdCol (present : String → Bool) : Option String :=
  idCandidates.find? present

/-- First present name candidate, `none` when there is none. -/
def detectSchoolNameCol (present : String → Bool) : Option String :=
  nameCandidates.find? present

/-- A school grouping key: the detected id column's value (non-null, since
rows without it were dropped), the name cell — tracked only when a name
column was detected — and the three dimension cells, which `dropna=False`
keeps even when null. -/
structure SchoolKey where
  sid : ℤ
  sname : Option (Option String)
  tipoEscola : Option String
  localizacao : Option String
  uf : Option String
deriving DecidableEq, Repr

/-- The school grouping key of a row, `none` when its school id is null. -/
def schoolKeyOf (useName : Bool) (r : NormRow) : Option SchoolKey :=
  r.schoolId.map (fun i =>
    { sid := i, sname := if useName then some r.schoolName else none,
      tipoEscola := r.tipoEscola, localizacao := r.localizacao, uf := r.uf })

/-- Named aggregation `(col, "mean")`: pandas averages the non-null cells of
the group and yields NaN on an all-null group. -/
def metricMean (m : Metric) (g : List NormRow) : Option ℚ :=
  let vs := g.filterMap (metricVal m)
  if vs.isEmpty then none else some (vs.sum / vs.length)

/-- One output row of `schools_stats.parquet`. -/
structure SchoolSummaryRow where
  key : SchoolKey
  nParticipantes : ℕ
  medias : List (Metric × Option ℚ)
deriving DecidableEq, Repr

/-- The aggregation of `preprocess_schools.main` (lines 61-86): drop the rows
whose school id is null (`df.dropna(subset=[school_id_col])`), then
`groupby(group_cols, dropna=False).agg(n_participantes=("nota_final","size"),
media_<col>=(col,"mean"))`. -/
def schoolsAgg (useName : Bool) (rows : List NormRow)
    (metricCols : List Metric) : List SchoolSummaryRow :=
  let kept := rows.filter (fun r => r.schoolId.isSome)
  ((kept.filterMap (schoolKeyOf useName)).dedup).map (fun k =>
    let g := kept.filter (fun r => schoolKeyOf useName r = some k)
    { key := k, nParticipantes := g.length,
      medias := metricCols.map (fun m => (m, metricMean m g)) })

/-- `preprocess_schools.main` from the schema check onward: raise when a
required column is missing (lines 40-50), detect the school id column and
raise when none of the candidates is present (lines 119-147), else group by
the detected columns.  `cols` is `df.columns` after `preprocess_enem_df`. -/
def schoolsMain (cols : List String) (rows : List NormRow) :
    Except String (List SchoolSummaryRow) :=
  let requiredAll := ["TIPO_ESCOLA", "LOCALIZACAO", "SG_UF_ESC", "nota_final",
    "NU_NOTA_CN", "NU_NOTA_CH", "NU_NOTA_LC", "NU_NOTA_MT", "NU_NOTA_REDACAO"]
  if requiredAll.all cols.contains then
    match detectSchoolIdCol cols.contains with
    | none => .error
        "Não consegui identificar a coluna de ID da escola."
    | some _ =>
        .ok (schoolsAgg (detectSchoolNameCol cols.contains).isSome rows allMetrics)
  else .error
    "Colunas faltando na base para o pré-processamento da Aba 3."

/-! ## Longitudinal Reshaper (`preprocess_ideb.py`) -/

/-- One row of the IDEB sheet after `read_excel(header=4)`: the `Rede` label
and, for each column name, the cell's numeric value after
`pd.to_numeric(errors="coerce")` — `none` when the cell is missing or not a
number. -/
structure IdebRawRow where
  rede : String
  cell : String → Option ℚ

/-- One output row of `ideb_brasil_em.parquet`. -/
structure IdebPoint where
  rede : String
  ano : String
  score : ℚ
deriving DecidableEq, Repr

/-- `str(c).isdigit()` for a column name. -/
def isYearCol (c : String) : Bool :=
  c.length > 0 && c.toList.all Char.isDigit

/-- `year_cols = [c for c in df.columns if str(c).isdigit()]`. -/
def idebYearCols (cols : List String) : List String :=
  cols.filter isYearCol

/-- `preprocess_ideb.main` (lines 24-47): keep the rows whose `Rede` is in
`{"Pública", "Privada"}`, raise when no year column exists, melt to one row
per (Rede, year column), coerce the value to numeric, and drop the rows
whose value is null.  (pandas melt emits the pairs column-major; the order
carries no meaning and the claims do not depend on it.) -/
def idebMain (cols : List String) (rows : List IdebRawRow) :
    Except String (List IdebPoint) :=
  let yearCols := idebYearCols cols
  if yearCols.isEmpty then
    .error "Não encontrei colunas de anos (2005, 2007, etc.) no Excel."
  else
    let kept := rows.filter (fun r => r.rede = "Pública" || r.rede = "Privada")
    .ok (kept.flatMap (fun r =>
      yearCols.filterMap (fun y =>
        (r.cell y).map (fun q => { rede := r.rede, ano := y, score := q }))))

/-! ## Derived measures used by the statements -/

/-- Number of normalized rows whose composite score is non-null. -/
def countNonNullNota (rows : List NormRow) : ℕ :=
  rows.countP (fun r => r.notaFinal.isSome)

/-- Number of normalized rows whose three grouping dimensions are all
non-null. -/
def countFullKeyRows (rows : List NormRow) : ℕ :=
  rows.countP (fun r => (fullKey r).isSome)

/-- `sum(Summary.n across all groups)`. -/
def sumN (srows : List SummaryRow) : ℕ :=
  (srows.map SummaryRow.n).sum

/-- The `media_<m>` cells of a school summary table. -/
def mediasOf (m : Metric) (srows : List SchoolSummaryRow) :
    List (Option (Option ℚ)) :=
  srows.map (fun r => r.medias.lookup m)

/-- The `n_participantes` cells of a school summary table. -/
def nParticipantesList (srows : List SchoolSummaryRow) : List ℕ :=
  srows.map SchoolSummaryRow.nParticipantes

/-- The raw (normalized) rows attributed to one school group: rows with a
non-null school id whose grouping cells match the key — the independent
recomputation base of the mean-consistency property. -/
def schoolRestriction (useName : Bool) (rows : List NormRow) (k : SchoolKey) :
    List NormRow :=
  (rows.filter (fun r => r.schoolId.isSome)).filter
    (fun r => schoolKeyOf useName r = some k)

/-- The bin a value of `[0, 1000]` falls into: `⌊v / 25⌋`, except that 1000
belongs to the last bin. -/
def targetBin (v : ℚ) : ℕ :=
  if v = 1000 then 39 else (⌊v / 25⌋).toNat

/-! ## Concrete example inputs -/

/-- A raw schema with every optional column present except a pre-existing
`nota_final`. -/
def exSchema : Schema where
  hasNotaFinal := false
  hasCN := true
  hasCH := true
  hasLC := true
  hasMT := true
  hasRed := true
  hasDep := true
  hasStatusRed := true
  hasLoc := true
  hasMunicipio := true
  hasUf := true

/-- `exSchema` without the administrative-network column. -/
def exSchemaNoDep : Schema :=
  { exSchema with hasDep := false }

/-- A raw record whose administrative-network code is the unmapped code 5. -/
def exRowCode5 : RawRow where
  notaFinal := none
  cn := some 500
  ch := some 500
  lc := some 500
  mt := some 500
  red := some 500
  dep := some 5
  statusRed := some 1
  loc := some 1
  municipio := some "Brasília"
  uf := some "DF"
  schoolId := some 11
  schoolName := some "Escola A"

/-- A normalized record with a fully non-null grouping key. -/
def exNorm1 : NormRow where
  notaFinal := some 500
  cn := some 500
  ch := none
  lc := none
  mt := none
  red := none
  tipoEscola := some "Federal"
  statusRedacao := none
  localizacao := some "Urbana"
  municipioUf := none
  uf := some "DF"
  schoolId := some 7
  schoolName := some "Escola B"

/-- Same school and dimensions as `exNorm1` but a null `NU_NOTA_CN` cell. -/
def exNorm2 : NormRow :=
  { exNorm1 with cn := none }

/-- The school group key `[exNorm1, exNorm2]` share. -/
def exSchoolKey : SchoolKey where
  sid := 7
  sname := some (some "Escola B")
  tipoEscola := some "Federal"
  localizacao := some "Urbana"
  uf := some "DF"

/-- The school summary row `schoolsAgg` produces on `[exNorm1, exNorm2]`. -/
def exSchoolRow : SchoolSummaryRow where
  key := exSchoolKey
  nParticipantes := 2
  medias := [(.notaFinal, some 500), (.cn, some 500), (.ch, none),
             (.lc, none), (.mt, none), (.red, none)]

/-- An IDEB sheet row for the tracked category `Pública`, with a numeric
cell only in column `2005`. -/
def exIdebRow : IdebRawRow where
  rede := "Pública"
  cell := fun y => if y = "2005" then some 3 else none

/-- An IDEB sheet row for the untracked category `Conveniada`. -/
def exIdebRowConv : IdebRawRow where
  rede := "Conveniada"
  cell := fun _ => some 4

/-- The output `idebMain` produces on the two example rows. -/
def exIdebOut : List IdebPoint :=
  [{ rede := "Pública", ano := "2005", score := 3 }]

/-! ## Helper lemmas -/

lemma rowSubjectVals_nil (s : Schema) (r : RawRow) (h : anySubject s = false) :
    rowSubjectVals s r = [] := by
  simp only [anySubject, Bool.or_eq_false_iff] at h
  obtain ⟨⟨⟨⟨h1, h2⟩, h3⟩, h4⟩, h5⟩ := h
  simp [rowSubjectVals, h1, h2, h3, h4, h5]

lemma mem_preprocess_imp {s : Schema} {rows : List RawRow} {x : NormRow}
    (hx : x ∈ (preprocessEnemDf s rows).2) : ∃ r ∈ rows, x = normalizeRow s r := by
  unfold preprocessEnemDf at hx
  by_cases hn : (normalizeSchema s).hasNotaFinal
  · simp only [hn, if_true] at hx
    obtain ⟨hx', _⟩ := List.mem_filter.mp hx
    obtain ⟨r, hr, hrx⟩ := List.mem_map.mp hx'
    exact ⟨r, hr, hrx.symm⟩
  · rw [if_neg hn] at hx
    obtain ⟨r, hr, hrx⟩ := List.mem_map.mp hx
    exact ⟨r, hr, hrx.symm⟩

lemma filterMap_length_of_isSome {α β : Type _} (f : α → Option β)
    (l : List α) (h : ∀ x ∈ l, (f x).isSome = true) :
    (l.filterMap f).length = l.length := by
  induction l with
  | nil => rfl
  | cons a tl ih =>
    have ha := h a (List.mem_cons_self a tl)
    obtain ⟨b, hb⟩ := Option.isSome_iff_exists.mp ha
    have htl := ih (fun x hx => h x (List.mem_cons_of_mem a hx))
    simp [List.filterMap_cons, hb, htl]

/-! ## Claims C6, C7, C8, C10 -/

/-- C6: for every raw record, the derived composite score is the unweighted
arithmetic mean of exactly the subject-score cells available and non-null
for that record (null when none is); derivation is skipped when a
pre-existing `nota_final` column exists; and afterwards every surviving
normalized row has a non-null composite score (the null ones are dropped). -/
theorem c6_composite_score (s : Schema) (rows : List RawRow) :
    (∀ r : RawRow, s.hasNotaFinal = false →
      (normalizeRow s r).notaFinal =
        (if (rowSubjectVals s r).isEmpty then none
         else some ((rowSubjectVals s r).sum / (rowSubjectVals s r).length)))
    ∧ (∀ r : RawRow, s.hasNotaFinal = true →
      (normalizeRow s r).notaFinal = r.notaFinal)
    ∧ ((normalizeSchema s).hasNotaFinal = true →
      ∀ x ∈ (preprocessEnemDf s rows).2, x.notaFinal.isSome = true) := by
  refine ⟨?_, ?_, ?_⟩
  · intro r hs
    show derivedNotaFinal s r = _
    cases hA : anySubject s
    · rw [rowSubjectVals_nil s r hA]
      simp [derivedNotaFinal, hs, hA]
    · simp [derivedNotaFinal, hs, hA]
  · intro r hs
    show derivedNotaFinal s r = _
    simp [derivedNotaFinal, hs]
  · intro hn x hx
    unfold preprocessEnemDf at hx
    simp only [hn, if_true] at hx
    exact (List.mem_filter.mp hx).2

/-- C6 witness: on the example schema (no pre-existing composite column) and
the code-5 record, the derived composite is the mean of the five subject
scores. -/
theorem c6_composite_score_witness :
    (normalizeRow exSchema exRowCode5).notaFinal =
      (if (rowSubjectVals exSchema exRowCode5).isEmpty then none
       else some ((rowSubjectVals exSchema exRowCode5).sum /
         (rowSubjectVals exSchema exRowCode5).length)) :=
  (c6_composite_score exSchema [exRowCode5]).1 exRowCode5 rfl

/-- C7: the Record Normalizer never raises for a missing optional column —
each derivation is skipped (its output column stays absent, its cells null)
when its source column is absent — and the normalization pipeline fails
exactly when neither the parquet nor the csv raw source exists. -/
theorem c7_soft_missing (pe ce : Bool) (pdf cdf : Schema × List RawRow)
    (s : Schema) (rows : List RawRow) :
    ((normalizePipeline pe ce pdf cdf).isOk = (pe || ce))
    ∧ (normalizeSchema s).hasTipoEscola = s.hasDep
    ∧ (normalizeSchema s).hasStatusRedacao = s.hasStatusRed
    ∧ (normalizeSchema s).hasLocalizacao = s.hasLoc
    ∧ (normalizeSchema s).hasMunicipioUf = (s.hasMunicipio && s.hasUf)
    ∧ (normalizeSchema s).hasNotaFinal = (s.hasNotaFinal || anySubject s)
    ∧ (s.hasDep = false →
        ∀ x ∈ (preprocessEnemDf s rows).2, x.tipoEscola = none)
    ∧ (s.hasLoc = false →
        ∀ x ∈ (preprocessEnemDf s rows).2, x.localizacao = none)
    ∧ (s.hasStatusRed = false →
        ∀ x ∈ (preprocessEnemDf s rows).2, x.statusRedacao = none) := by
  refine ⟨?_, rfl, rfl, rfl, rfl, rfl, ?_, ?_, ?_⟩
  · cases pe <;> cases ce <;> rfl
  · intro h x hx
    obtain ⟨r, _, rfl⟩ := mem_preprocess_imp hx
    simp [normalizeRow, h]
  · intro h x hx
    obtain ⟨r, _, rfl⟩ := mem_preprocess_imp hx
    simp [normalizeRow, h]
  · intro h x hx
    obtain ⟨r, _, rfl⟩ := mem_preprocess_imp hx
    simp [normalizeRow, h]

/-- C7 witness: with both source files absent the pipeline fails; with the
parquet present it succeeds; and on a schema lacking
`TP_DEPENDENCIA_ADM_ESC` the normalized example row has a null label. -/
theorem c7_soft_missing_witness :
    ((normalizePipeline false false (exSchema, []) (exSchema, [])).isOk
        = (false || false))
    ∧ ((normalizePipeline true false (exSchema, []) (exSchema, [])).isOk
        = (true || false))
    ∧ (normalizeRow exSchemaNoDep exRowCode5).tipoEscola = none :=
  ⟨(c7_soft_missing false false (exSchema, []) (exSchema, []) exSchema []).1,
   (c7_soft_missing true false (exSchema, []) (exSchema, []) exSchema []).1,
   (c7_soft_missing false false (exSchema, []) (exSchema, [])
      exSchemaNoDep [exRowCode5]).2.2.2.2.2.2.1 rfl
      (normalizeRow exSchemaNoDep exRowCode5)
      (by rw [show (preprocessEnemDf exSchemaNoDep [exRowCode5]).2
            = [normalizeRow exSchemaNoDep exRowCode5] from rfl]
          exact List.mem_singleton.mpr rfl)⟩

/-- C8: school-entity-column detection returns the first column of the fixed
priority list `CO_ESCOLA, ID_ESCOLA, COD_ESCOLA, ESCOLA_ID, CO_ENTIDADE`
present in the schema, and when none is present the pipeline aborts with an
error instead of producing output. -/
theorem c8_detect_school_id (cols : List String) (rows : List NormRow) :
    (detectSchoolIdCol cols.contains
      = (if cols.contains "CO_ESCOLA" then some "CO_ESCOLA"
         else if cols.contains "ID_ESCOLA" then some "ID_ESCOLA"
         else if cols.contains "COD_ESCOLA" then some "COD_ESCOLA"
         else if cols.contains "ESCOLA_ID" then some "ESCOLA_ID"
         else if cols.contains "CO_ENTIDADE" then some "CO_ENTIDADE"
         else none))
    ∧ (detectSchoolIdCol cols.contains = none →
        ∀ out, schoolsMain cols rows ≠ Except.ok out) := by
  constructor
  · unfold detectSchoolIdCol idCandidates
    by_cases h1 : "CO_ESCOLA" ∈ cols <;>
      by_cases h2 : "ID_ESCOLA" ∈ cols <;>
        by_cases h3 : "COD_ESCOLA" ∈ cols <;>
          by_cases h4 : "ESCOLA_ID" ∈ cols <;>
            by_cases h5 : "CO_ENTIDADE" ∈ cols <;>
              simp [List.find?, h1, h2, h3, h4, h5]
  · intro h out
    unfold schoolsMain
    by_cases hreq : (["TIPO_ESCOLA", "LOCALIZACAO", "SG_UF_ESC", "nota_final",
        "NU_NOTA_CN", "NU_NOTA_CH", "NU_NOTA_LC", "NU_NOTA_MT",
        "NU_NOTA_REDACAO"] : List String).all cols.contains
    · simp [hreq, h]
    · simp [hreq]

/-- C8 witness: on a schema without any identifier candidate, detection
fails and the pipeline refuses to produce the empty output. -/
theorem c8_detect_school_id_witness :
    schoolsMain ["TIPO_ESCOLA"] [] ≠ Except.ok [] :=
  (c8_detect_school_id ["TIPO_ESCOLA"] []).2 rfl []

/-- C10: every row the Longitudinal Reshaper outputs carries a network
category in `{Pública, Privada}` and a numeric score that comes from the
corresponding source row's cell in an all-digit year column; categories such
as `Conveniada` and non-numeric or missing cells never reach the output. -/
theorem c10_longitudinal_filter (cols : List String) (rows : List IdebRawRow)
    (out : List IdebPoint) (hout : idebMain cols rows = .ok out) :
    ∀ p ∈ out, ((p.rede = "Pública" ∨ p.rede = "Privada")
      ∧ ∃ r ∈ rows, r.rede = p.rede ∧ r.cell p.ano = some p.score
          ∧ isYearCol p.ano = true) := by
  unfold idebMain at hout
  by_cases hy : (idebYearCols cols).isEmpty
  · rw [if_pos hy] at hout
    cases hout
  · rw [if_neg hy] at hout
    obtain rfl := (Except.ok.injEq _ _).mp hout
    intro p hp
    obtain ⟨r, hr, hpF⟩ := List.mem_flatMap.mp hp
    obtain ⟨hrmem, hrede⟩ := List.mem_filter.mp hr
    obtain ⟨y, hy2, heq⟩ := List.mem_filterMap.mp hpF
    obtain ⟨q, hq, hpq⟩ := Option.map_eq_some'.mp heq
    subst hpq
    refine ⟨?_, r, hrmem, rfl, hq, ?_⟩
    · simpa using hrede
    · exact (List.mem_filter.mp hy2).2

/-- C10 witness: on a source with a `Pública` row and a `Conveniada` row the
single output point is labelled `Pública`. -/
theorem c10_longitudinal_filter_witness :
    ({ rede := "Pública", ano := "2005", score := 3 } : IdebPoint).rede
        = "Pública"
    ∨ ({ rede := "Pública", ano := "2005", score := 3 } : IdebPoint).rede
        = "Privada" :=
  (c10_longitudinal_filter ["Rede", "2005"] [exIdebRow, exIdebRowConv]
    exIdebOut rfl { rede := "Pública", ano := "2005", score := 3 }
    (by decide)).1

/-! ## Claims C1, C2, C3 -/

lemma beq_ofDecEq_true {α : Type _} [inst : DecidableEq α] {a b : α}
    (h : a = b) : (@BEq.beq α instBEqOfDecidableEq a b) = true :=
  decide_eq_true h

lemma beq_ofDecEq_false {α : Type _} [inst : DecidableEq α] {a b : α}
    (h : ¬a = b) : (@BEq.beq α instBEqOfDecidableEq a b) = false :=
  decide_eq_false h

lemma metricMean_of_ne_nil (m : Metric) (g : List NormRow)
    (h : (g.filterMap (metricVal m)).isEmpty = false) :
    metricMean m g = some ((g.filterMap (metricVal m)).sum
      / ((g.filterMap (metricVal m)).length : ℚ)) := by
  show (if (g.filterMap (metricVal m)).isEmpty then none
        else some ((g.filterMap (metricVal m)).sum
          / ((g.filterMap (metricVal m)).length : ℚ))) = _
  rw [h]
  simp

lemma groupRows_length_eq_count (rows : List NormRow) (k : FullKey) :
    (groupRows rows k).length
      = @List.count FullKey instBEqOfDecidableEq k (rows.filterMap fullKey) := by
  induction rows with
  | nil => rfl
  | cons r tl ih =>
    unfold groupRows at *
    cases h : fullKey r with
    | none => simp [List.filter_cons, List.filterMap_cons, h, ih]
    | some c =>
      by_cases hc : c = k
      · subst hc
        simp [List.filter_cons, List.filterMap_cons, h, List.count_cons, ih,
          beq_ofDecEq_true (rfl : c = c)]
      · simp [List.filter_cons, List.filterMap_cons, h, List.count_cons, hc,
          ih, Ne.symm hc, beq_ofDecEq_false hc]

lemma length_filterMap_isSome {α β : Type _} (f : α → Option β) (l : List α) :
    (l.filterMap f).length = l.countP (fun a => (f a).isSome) := by
  induction l with
  | nil => rfl
  | cons a tl ih =>
    cases h : f a <;> simp [List.filterMap_cons, h, List.countP_cons, ih]

lemma sum_groupRows_length (rows : List NormRow) :
    (((rows.filterMap fullKey).dedup).map
      (fun k => (groupRows rows k).length)).sum = countFullKeyRows rows := by
  rw [List.map_congr_left
    (fun k _ => groupRows_length_eq_count rows k)]
  have h2 := List.sum_map_count_dedup_eq_length (rows.filterMap fullKey)
  rw [length_filterMap_isSome] at h2
  exact h2

/-- C1 counterexample: on a raw record whose network code is the unmapped
code 5 (with valid locale, region and subject scores), normalization keeps
the row with a null network label, yet the overview Dimensional Aggregator
emits no Summary Row at all — the null-keyed combination is dropped, not
grouped. -/
theorem c1_counterexample :
    (preprocessEnemDf exSchema [exRowCode5]).2.length = 1
    ∧ (preprocessEnemDf exSchema [exRowCode5]).2.map NormRow.tipoEscola
        = [none]
    ∧ buildOverviewStats (preprocessEnemDf exSchema [exRowCode5]).2 allMetrics
        = [] := by
  refine ⟨rfl, rfl, rfl⟩

/-- C1 amended: the overview Dimensional Aggregator emits exactly one
Summary Row per distinct combination of dimension values in which all three
dimensions are non-null; combinations with a null dimension value are
dropped (pandas `groupby` default `dropna=True`), even though an unmapped
network code (such as 5) does get a null label rather than failing. -/
theorem c1_one_row_per_full_combination (rows : List NormRow)
    (ms : List Metric) :
    (buildOverviewStats rows ms).map summaryKey = (rows.filterMap fullKey).dedup
    ∧ ((buildOverviewStats rows ms).map summaryKey).Nodup
    ∧ (∀ i : ℤ, (i = 1 ∨ i = 2 ∨ i = 3 ∨ i = 4) ∨ mapaDependencia i = none)
    ∧ mapaDependencia 5 = none := by
  have h1 : (buildOverviewStats rows ms).map summaryKey
      = (rows.filterMap fullKey).dedup := by
    unfold buildOverviewStats
    rw [List.map_map]
    exact List.map_id _
  refine ⟨h1, h1 ▸ List.nodup_dedup _, ?_, by decide⟩
  intro i
  unfold mapaDependencia
  split_ifs with h1 h2 h3 h4 <;> tauto

/-- C2 counterexample: the same code-5 record survives the composite-score
dropna (count 1), yet the Summary Rows' `n` fields sum to 0. -/
theorem c2_counterexample :
    countNonNullNota (preprocessEnemDf exSchema [exRowCode5]).2 = 1
    ∧ sumN (buildOverviewStats (preprocessEnemDf exSchema [exRowCode5]).2
        allMetrics) = 0 := by
  refine ⟨rfl, rfl⟩

/-- C2 amended: the sum of `n` across the overview Summary Rows equals the
number of normalized rows whose three grouping dimensions are all non-null —
rows with a null dimension are excluded by the `groupby` default
`dropna=True`, so the sum can undercount the rows with a non-null composite
score. -/
theorem c2_sum_n_counts_full_key_rows (rows : List NormRow)
    (ms : List Metric) :
    sumN (buildOverviewStats rows ms) = countFullKeyRows rows := by
  unfold sumN
  have h : (buildOverviewStats rows ms).map SummaryRow.n
      = ((rows.filterMap fullKey).dedup).map
          (fun k => (groupRows rows k).length) := by
    unfold buildOverviewStats
    rw [List.map_map]
    rfl
  rw [h]
  exact sum_groupRows_length rows

lemma exMean_notaFinal :
    metricMean .notaFinal [exNorm1, exNorm2] = some 500 := by
  norm_num [metricMean, metricVal, exNorm1, exNorm2, List.filterMap_cons,
    List.sum_cons, List.sum_nil]

lemma exMean_cn : metricMean .cn [exNorm1, exNorm2] = some 500 := by
  norm_num [metricMean, metricVal, exNorm1, exNorm2, List.filterMap_cons,
    List.sum_cons, List.sum_nil]

lemma exSum_cn : metricSum .cn [exNorm1, exNorm2] = 500 := by
  norm_num [metricSum, metricVal, exNorm1, exNorm2, List.filterMap_cons,
    List.sum_cons, List.sum_nil]

lemma exSchoolsAgg_eval :
    schoolsAgg true [exNorm1, exNorm2] allMetrics = [exSchoolRow] := by
  rw [show schoolsAgg true [exNorm1, exNorm2] allMetrics
      = [{ key := exSchoolKey, nParticipantes := 2,
           medias := allMetrics.map
             (fun m => (m, metricMean m [exNorm1, exNorm2])) }] from rfl]
  rw [show (allMetrics.map (fun m => (m, metricMean m [exNorm1, exNorm2])))
      = [(.notaFinal, metricMean .notaFinal [exNorm1, exNorm2]),
         (.cn, metricMean .cn [exNorm1, exNorm2]),
         (.ch, metricMean .ch [exNorm1, exNorm2]),
         (.lc, metricMean .lc [exNorm1, exNorm2]),
         (.mt, metricMean .mt [exNorm1, exNorm2]),
         (.red, metricMean .red [exNorm1, exNorm2])] from rfl]
  rw [exMean_notaFinal, exMean_cn]
  rfl

lemma exRestriction_eval :
    schoolRestriction true [exNorm1, exNorm2] exSchoolKey
      = [exNorm1, exNorm2] := rfl

/-- C3 counterexample: a school with two participants, one of them with a
null `NU_NOTA_CN` cell — the emitted `media_NU_NOTA_CN` is 500 (the mean of
the non-null values), while `sum_NU_NOTA_CN / n_participantes = 500 / 2`
differs from it. -/
theorem c3_counterexample :
    mediasOf .cn (schoolsAgg true [exNorm1, exNorm2] allMetrics)
        = [some (some 500)]
    ∧ nParticipantesList (schoolsAgg true [exNorm1, exNorm2] allMetrics) = [2]
    ∧ metricSum .cn [exNorm1, exNorm2] = 500
    ∧ mediasOf .cn (schoolsAgg true [exNorm1, exNorm2] allMetrics)
        ≠ [some (some (metricSum .cn [exNorm1, exNorm2] / (2 : ℚ)))] := by
  have hm : mediasOf .cn (schoolsAgg true [exNorm1, exNorm2] allMetrics)
      = [some (some 500)] := by
    rw [exSchoolsAgg_eval]
    rfl
  refine ⟨hm, by rw [exSchoolsAgg_eval]; rfl, exSum_cn, ?_⟩
  rw [hm, exSum_cn]
  intro hcontra
  have : (some (some (500 : ℚ)) : Option (Option ℚ))
      = some (some (500 / 2)) := by
    simpa using hcontra
  have h5 : (500 : ℚ) = 500 / 2 := by
    simpa using this
  norm_num at h5

/-- C3 amended: each `media_<metric>` cell of the School-Level Aggregator is
the arithmetic mean of the non-null metric values of the rows restricted to
that school group (recomputed independently); it equals
`sum_<metric> / n_participantes` only under the extra assumption that the
metric is non-null on every row of the group. -/
theorem c3_media_is_group_mean (useName : Bool) (rows : List NormRow)
    (ms : List Metric) (r : SchoolSummaryRow)
    (hr : r ∈ schoolsAgg useName rows ms) (m : Metric) (v : Option ℚ)
    (hv : (m, v) ∈ r.medias) :
    v = metricMean m (schoolRestriction useName rows r.key)
    ∧ (schoolRestriction useName rows r.key ≠ [] →
       (∀ x ∈ schoolRestriction useName rows r.key,
          (metricVal m x).isSome = true) →
       v = some (metricSum m (schoolRestriction useName rows r.key)
          / r.nParticipantes)) := by
  simp only [schoolsAgg] at hr
  obtain ⟨k, hk, rfl⟩ := List.mem_map.mp hr
  simp only [SchoolSummaryRow.medias] at hv
  obtain ⟨m', hm', heq⟩ := List.mem_map.mp hv
  obtain ⟨rfl, rfl⟩ := Prod.mk.injEq .. |>.mp heq |>.imp Eq.symm Eq.symm
  constructor
  · rfl
  · intro hne hall
    have hlen : ((schoolRestriction useName rows k).filterMap
        (metricVal m)).length = (schoolRestriction useName rows k).length :=
      filterMap_length_of_isSome _ _ hall
    have hemp : ((schoolRestriction useName rows k).filterMap
        (metricVal m)).isEmpty = false := by
      cases hE : ((schoolRestriction useName rows k).filterMap
          (metricVal m)).isEmpty
      · rfl
      · exfalso
        have hnil : (schoolRestriction useName rows k).filterMap
            (metricVal m) = [] := List.isEmpty_iff.mp hE
        have h0 : (schoolRestriction useName rows k).length = 0 := by
          rw [← hlen, hnil]
          rfl
        exact hne (List.length_eq_zero.mp h0)
    show metricMean m (schoolRestriction useName rows k)
      = some (metricSum m (schoolRestriction useName rows k)
          / ((schoolRestriction useName rows k).length : ℚ))
    rw [metricMean_of_ne_nil m _ hemp, hlen]
    rfl

/-- C3 witness: on the two-row example school, the theorem recovers
`media_nota_final = 500`, and — `nota_final` being non-null on both rows —
the sum-over-n form as well. -/
theorem c3_media_is_group_mean_witness :
    some (500 : ℚ) = metricMean .notaFinal
        (schoolRestriction true [exNorm1, exNorm2] exSchoolRow.key)
    ∧ some (500 : ℚ) = some (metricSum .notaFinal
        (schoolRestriction true [exNorm1, exNorm2] exSchoolRow.key)
        / exSchoolRow.nParticipantes) := by
  have h := c3_media_is_group_mean true [exNorm1, exNorm2] allMetrics
    exSchoolRow
    (by rw [exSchoolsAgg_eval]; exact List.mem_singleton.mpr rfl)
    .notaFinal (some 500)
    (List.mem_cons_self _ _)
  refine ⟨h.1, h.2 ?_ ?_⟩
  · rw [show exSchoolRow.key = exSchoolKey from rfl, exRestriction_eval]
    simp
  · rw [show exSchoolRow.key = exSchoolKey from rfl, exRestriction_eval]
    intro x hx
    rcases List.mem_cons.mp hx with rfl | hx2
    · rfl
    · rcases List.mem_cons.mp hx2 with rfl | hx3
      · rfl
      · cases hx3

/-! ## Claims C4, C5, C9: the Histogram Builder -/

lemma binEdges_length : binEdges.length = 41 := by
  unfold binEdges linspace
  rw [List.length_map, List.length_range]

lemma binEdges_getD (i : ℕ) (hi : i < 41) : binEdges.getD i 0 = 25 * i := by
  unfold binEdges linspace
  rw [List.getD_eq_getElem?_getD, List.getElem?_map, List.getElem?_range hi]
  show ((0 : ℚ) + (1000 - 0) * i / ((41 : ℚ) - 1)) = 25 * i
  field_simp
  ring

lemma numBins_eq : numBins = 40 := by
  simp [numBins, binEdges_length]

lemma inBinEdges_iff (i : ℕ) (hi : i < 40) (v : ℚ) :
    inBinEdges binEdges i v = true ↔
      (((25 * i : ℚ) ≤ v ∧ v < 25 * (i : ℚ) + 25) ∨ (i = 39 ∧ v = 1000)) := by
  unfold inBinEdges
  rw [binEdges_getD i (by omega), binEdges_getD (i + 1) (by omega),
    binEdges_length]
  by_cases h39 : i = 39
  · subst h39
    rw [if_pos (by norm_num : 39 + 2 = 41)]
    simp only [Bool.and_eq_true, decide_eq_true_eq]
    have e1 : ((39 : ℕ) : ℚ) = 39 := by norm_num
    have e2 : ((39 + 1 : ℕ) : ℚ) = 40 := by norm_num
    rw [e1, e2]
    constructor
    · rintro ⟨h2, h3⟩
      rcases eq_or_lt_of_le h3 with h4 | h4
      · refine Or.inr ⟨by norm_num, by linarith⟩
      · refine Or.inl ⟨by linarith, by linarith⟩
    · rintro (⟨h2, h3⟩ | ⟨_, h4⟩)
      · exact ⟨by linarith, by linarith⟩
      · constructor
        · rw [h4]
          norm_num
        · rw [h4]
          norm_num
  · rw [if_neg (by omega : ¬i + 2 = 41)]
    simp only [Bool.and_eq_true, decide_eq_true_eq]
    constructor
    · rintro ⟨h2, h3⟩
      push_cast at h3
      exact Or.inl ⟨h2, by linarith⟩
    · rintro (⟨h2, h3⟩ | ⟨h2, _⟩)
      · refine ⟨h2, ?_⟩
        push_cast
        linarith
      · exact absurd h2 h39

lemma targetBin_lt (v : ℚ) (h0 : 0 ≤ v) (h1 : v ≤ 1000) : targetBin v < 40 := by
  unfold targetBin
  split_ifs with hv
  · omega
  · have hlt : v < 1000 := lt_of_le_of_ne h1 hv
    have hfl : ⌊v / 25⌋ < 40 := by
      have hq : v / 25 < 40 := by
        rw [div_lt_iff₀ (by norm_num : (0:ℚ) < 25)]
        linarith
      exact_mod_cast Int.floor_lt.mpr (by exact_mod_cast hq)
    have hnn : (0:ℤ) ≤ ⌊v / 25⌋ := Int.floor_nonneg.mpr (by positivity)
    omega

lemma inBinEdges_eq_target (v : ℚ) (h0 : 0 ≤ v) (h1 : v ≤ 1000)
    (i : ℕ) (hi : i < 40) :
    (inBinEdges binEdges i v = true) ↔ i = targetBin v := by
  rw [inBinEdges_iff i hi v]
  unfold targetBin
  by_cases hv : v = 1000
  · subst hv
    rw [if_pos rfl]
    constructor
    · rintro (⟨_, h3⟩ | ⟨h4, _⟩)
      · exfalso
        have hgt : (39 : ℚ) < (i : ℚ) := by linarith
        have : 39 < i := by exact_mod_cast hgt
        omega
      · exact h4
    · rintro rfl
      exact Or.inr ⟨rfl, rfl⟩
  · rw [if_neg hv]
    have hlt : v < 1000 := lt_of_le_of_ne h1 hv
    have hnn : (0:ℤ) ≤ ⌊v / 25⌋ := Int.floor_nonneg.mpr (by positivity)
    constructor
    · rintro (⟨h2, h3⟩ | ⟨_, h5⟩)
      · have hfl : ⌊v / 25⌋ = (i : ℤ) := by
          rw [Int.floor_eq_iff]
          constructor
          · rw [le_div_iff₀ (by norm_num : (0:ℚ) < 25)]
            push_cast
            linarith
          · rw [div_lt_iff₀ (by norm_num : (0:ℚ) < 25)]
            push_cast
            linarith
        omega
      · exact absurd h5 hv
    · rintro rfl
      left
      have hcast : ((⌊v / 25⌋.toNat : ℕ) : ℚ) = ((⌊v / 25⌋ : ℤ) : ℚ) := by
        exact_mod_cast congrArg Int.cast (Int.toNat_of_nonneg hnn)
      constructor
      · have hle : ((⌊v / 25⌋ : ℤ) : ℚ) ≤ v / 25 := Int.floor_le _
        rw [hcast]
        rw [le_div_iff₀ (by norm_num : (0:ℚ) < 25)] at hle
        linarith
      · have hlt2 : v / 25 < ⌊v / 25⌋ + 1 := Int.lt_floor_add_one _
        rw [div_lt_iff₀ (by norm_num : (0:ℚ) < 25)] at hlt2
        rw [hcast]
        linarith

lemma sum_indicator_bins (v : ℚ) (h0 : 0 ≤ v) (h1 : v ≤ 1000) :
    (∑ i in Finset.range 40,
      (if inBinEdges binEdges i v = true then 1 else 0)) = 1 := by
  have hcongr : ∀ i ∈ Finset.range 40,
      (if inBinEdges binEdges i v = true then (1:ℕ) else 0)
        = if i = targetBin v then 1 else 0 := fun i hi =>
    if_congr (inBinEdges_eq_target v h0 h1 i (Finset.mem_range.mp hi)) rfl rfl
  rw [Finset.sum_congr rfl hcongr,
    Finset.sum_ite_eq' (Finset.range 40) (targetBin v) (fun _ => (1:ℕ)),
    if_pos (Finset.mem_range.mpr (targetBin_lt v h0 h1))]

lemma sum_countP_bins (vals : List ℚ) (hv : ∀ x ∈ vals, 0 ≤ x ∧ x ≤ 1000) :
    (∑ i in Finset.range 40, vals.countP (inBinEdges binEdges i))
      = vals.length := by
  induction vals with
  | nil => simp
  | cons a tl ih =>
    have ha := hv a (List.mem_cons_self a tl)
    have htl := ih (fun x hx => hv x (List.mem_cons_of_mem a hx))
    simp only [List.countP_cons]
    rw [Finset.sum_add_distrib, htl, sum_indicator_bins a ha.1 ha.2,
      List.length_cons]

lemma histBlock_sum (k : FullKey) (m : Metric) (vals : List ℚ) :
    ((histBlock k m vals).map BinRow.count).sum
      = ∑ i in Finset.range 40, vals.countP (inBinEdges binEdges i) := by
  rw [show (∑ i in Finset.range 40, vals.countP (inBinEdges binEdges i))
      = ((List.range 40).map
          (fun i => vals.countP (inBinEdges binEdges i))).sum from rfl]
  unfold histBlock
  rw [numBins_eq]
  generalize List.range 40 = l
  induction l with
  | nil => rfl
  | cons i tl ih =>
    by_cases hc : vals.countP (inBinEdges binEdges i) = 0
    · rw [List.filterMap_cons, if_pos hc]
      simp only [List.map_cons, List.sum_cons, hc, Nat.zero_add, ih]
    · rw [List.filterMap_cons, if_neg hc]
      simp only [List.map_cons, List.sum_cons, ih]

lemma mem_histBlock {r : BinRow} {k : FullKey} {m : Metric} {vals : List ℚ}
    (h : r ∈ histBlock k m vals) :
    binRowKey r = k ∧ r.metric = m ∧ r.binIdx < 40
    ∧ r.binLeft = binEdges.getD r.binIdx 0
    ∧ r.binRight = binEdges.getD (r.binIdx + 1) 0
    ∧ r.count = vals.countP (inBinEdges binEdges r.binIdx)
    ∧ r.count ≠ 0 := by
  unfold histBlock at h
  obtain ⟨i, hi, hfi⟩ := List.mem_filterMap.mp h
  rw [List.mem_range, numBins_eq] at hi
  by_cases hc : vals.countP (inBinEdges binEdges i) = 0
  · rw [if_pos hc] at hfi
    cases hfi
  · rw [if_neg hc] at hfi
    obtain rfl := (Option.some.injEq _ _).mp hfi
    exact ⟨rfl, rfl, hi, rfl, rfl, rfl, hc⟩

lemma mem_buildOverviewHist {r : BinRow} {rows : List NormRow}
    {ms : List Metric} (h : r ∈ buildOverviewHist rows ms) :
    ∃ k ∈ (rows.filterMap fullKey).dedup, ∃ m ∈ ms,
      (groupMetricVals rows k m).isEmpty = false
      ∧ r ∈ histBlock k m (groupMetricVals rows k m) := by
  unfold buildOverviewHist at h
  obtain ⟨k, hk, h2⟩ := List.mem_flatMap.mp h
  obtain ⟨m, hm, h3⟩ := List.mem_flatMap.mp h2
  by_cases he : (groupMetricVals rows k m).isEmpty = true
  · rw [if_pos he] at h3
    cases h3
  · rw [if_neg he] at h3
    exact ⟨k, hk, m, hm, by simpa using he, h3⟩

lemma filter_flatMap_nil {α β : Type _} (p : β → Bool) (F : α → List β)
    (keys : List α) (h : ∀ k ∈ keys, (F k).filter p = []) :
    (keys.flatMap F).filter p = [] := by
  induction keys with
  | nil => rfl
  | cons a tl ih =>
    rw [List.flatMap_cons, List.filter_append, h a (List.mem_cons_self a tl),
      ih (fun k hk => h k (List.mem_cons_of_mem a hk))]
    rfl

lemma filter_flatMap_single {α β : Type _} (p : β → Bool) (F : α → List β)
    (keys : List α) (k : α) (hnd : keys.Nodup) (hmem : k ∈ keys)
    (hother : ∀ x ∈ keys, x ≠ k → (F x).filter p = []) :
    (keys.flatMap F).filter p = (F k).filter p := by
  induction keys with
  | nil => cases hmem
  | cons a tl ih =>
    rw [List.flatMap_cons, List.filter_append]
    rcases List.mem_cons.mp hmem with rfl | hk
    · have hnotin : k ∉ tl := (List.nodup_cons.mp hnd).1
      rw [filter_flatMap_nil p F tl (fun x hx =>
        hother x (List.mem_cons_of_mem k hx)
          (fun hxy => hnotin (hxy ▸ hx)))]
      rw [List.append_nil]
    · have ha : a ≠ k := fun hak => (List.nodup_cons.mp hnd).1 (hak ▸ hk)
      rw [hother a (List.mem_cons_self a tl) ha, List.nil_append]
      exact ih (List.nodup_cons.mp hnd).2 hk
        (fun x hx hxk => hother x (List.mem_cons_of_mem a hx) hxk)

lemma filter_condBlock_ne_metric (k kk : FullKey) (m m' : Metric)
    (hne : m' ≠ m) (vals : List ℚ) :
    ((if vals.isEmpty then [] else histBlock k m' vals).filter
      (fun r => decide (binRowKey r = kk ∧ r.metric = m))) = [] := by
  apply List.filter_eq_nil_iff.mpr
  intro r hr
  by_cases he : vals.isEmpty = true
  · rw [if_pos he] at hr
    cases hr
  · rw [if_neg he] at hr
    have hmet := (mem_histBlock hr).2.1
    simp only [decide_eq_true_eq]
    rintro ⟨_, h2⟩
    exact hne (hmet ▸ h2 ▸ rfl)

lemma filter_keyBlocks_ne (rows : List NormRow) (ms : List Metric)
    (k kk : FullKey) (hne : k ≠ kk) (m : Metric) :
    ((ms.flatMap (fun m' =>
        if (groupMetricVals rows k m').isEmpty then []
        else histBlock k m' (groupMetricVals rows k m'))).filter
      (fun r => decide (binRowKey r = kk ∧ r.metric = m))) = [] := by
  apply List.filter_eq_nil_iff.mpr
  intro r hr
  obtain ⟨m', hm', hrB⟩ := List.mem_flatMap.mp hr
  by_cases he : (groupMetricVals rows k m').isEmpty = true
  · rw [if_pos he] at hrB
    cases hrB
  · rw [if_neg he] at hrB
    have hkey := (mem_histBlock hrB).1
    simp only [decide_eq_true_eq]
    rintro ⟨h1, _⟩
    exact hne (hkey.symm.trans h1)

lemma groupKey_mem_of_vals_ne_nil {rows : List NormRow} {k : FullKey}
    {m : Metric} (hne : groupMetricVals rows k m ≠ []) :
    k ∈ (rows.filterMap fullKey).dedup := by
  by_contra hk
  have hnil : groupRows rows k = [] := by
    apply List.eq_nil_iff_forall_not_mem.mpr
    intro x hx
    apply hk
    apply List.mem_dedup.mpr
    exact List.mem_filterMap.mpr ⟨x, (List.mem_filter.mp hx).1,
      of_decide_eq_true (List.mem_filter.mp hx).2⟩
  apply hne
  rw [show groupMetricVals rows k m
      = (groupRows rows k).filterMap (metricVal m) from rfl, hnil]
  rfl

lemma histFor_buildOverviewHist (rows : List NormRow) (ms : List Metric)
    (hnd : ms.Nodup) (k : FullKey) (m : Metric) (hm : m ∈ ms)
    (hne : groupMetricVals rows k m ≠ []) :
    histFor (buildOverviewHist rows ms) k m
      = histBlock k m (groupMetricVals rows k m) := by
  have hemp : (groupMetricVals rows k m).isEmpty = false := by
    cases hE : (groupMetricVals rows k m).isEmpty
    · rfl
    · exact absurd (List.isEmpty_iff.mp hE) hne
  unfold histFor buildOverviewHist
  rw [filter_flatMap_single _ _ _ k (List.nodup_dedup _)
    (groupKey_mem_of_vals_ne_nil hne)
    (fun x _ hxk => filter_keyBlocks_ne rows ms x k hxk m)]
  rw [filter_flatMap_single _ _ ms m hnd hm
    (fun m' _ hm'm => filter_condBlock_ne_metric k k m m' hm'm _)]
  rw [if_neg (by rw [hemp]; exact Bool.false_ne_true)]
  apply List.filter_eq_self.mpr
  intro r hr
  have hmem := mem_histBlock hr
  simp only [decide_eq_true_eq]
  exact ⟨hmem.1, hmem.2.1⟩

/-- C4: for every group and metric with at least one non-null value (all
metric values lying in the documented 0-1000 score range, and the metric
list without duplicates, as in `DISCIPLINE_OPTIONS`), the `count` fields of
the Bin Rows emitted for that (group, metric) sum to the number of non-null
values of that metric in that group. -/
theorem c4_hist_completeness (rows : List NormRow) (ms : List Metric)
    (hnd : ms.Nodup) (k : FullKey) (m : Metric) (hm : m ∈ ms)
    (hrange : ∀ v ∈ groupMetricVals rows k m, 0 ≤ v ∧ v ≤ 1000)
    (hne : groupMetricVals rows k m ≠ []) :
    ((histFor (buildOverviewHist rows ms) k m).map BinRow.count).sum
      = (groupMetricVals rows k m).length := by
  rw [histFor_buildOverviewHist rows ms hnd k m hm hne, histBlock_sum]
  exact sum_countP_bins _ hrange

/-- C4 witness: one row with composite score 500 in group (Federal, Urbana,
DF) — the single emitted bin count sums to 1, the number of non-null
values. -/
theorem c4_hist_completeness_witness :
    ((histFor (buildOverviewHist [exNorm1] allMetrics)
        ("Federal", "Urbana", "DF") .notaFinal).map BinRow.count).sum
      = (groupMetricVals [exNorm1] ("Federal", "Urbana", "DF")
          .notaFinal).length := by
  apply c4_hist_completeness [exNorm1] allMetrics (by decide)
    ("Federal", "Urbana", "DF") .notaFinal (by decide)
  · intro v hv
    rcases List.mem_cons.mp hv with rfl | hv2
    · norm_num
    · cases hv2
  · intro hcontra
    cases hcontra

/-- C5: the Histogram Builder uses exactly 40 equal-width bins spanning
[0, 1000] with edges at multiples of 25 (`np.linspace(0, 1000, 41)`), and
every emitted Bin Row carries `bin_left = 25 * bin_idx`,
`bin_right = 25 * (bin_idx + 1)` and the count of the group's non-null
metric values `v` with `bin_left ≤ v < bin_right` — the final bin (index 39)
additionally counting `v = 1000`. -/
theorem c5_bin_layout (rows : List NormRow) (ms : List Metric) :
    binEdges.length = 41
    ∧ numBins = 40
    ∧ (∀ i : ℕ, i ≤ 40 → binEdges.getD i 0 = 25 * i)
    ∧ ∀ r ∈ buildOverviewHist rows ms,
        r.binIdx < 40
        ∧ r.binLeft = 25 * r.binIdx
        ∧ r.binRight = 25 * (r.binIdx + 1)
        ∧ r.count = (groupMetricVals rows (binRowKey r) r.metric).countP
            (fun v => decide (((25 * r.binIdx : ℚ) ≤ v
                ∧ v < 25 * (r.binIdx : ℚ) + 25)
              ∨ (r.binIdx = 39 ∧ v = 1000))) := by
  refine ⟨binEdges_length, numBins_eq,
    fun i hi => binEdges_getD i (by omega), ?_⟩
  intro r hr
  obtain ⟨k, _, m, _, _, hrB⟩ := mem_buildOverviewHist hr
  obtain ⟨hkey, hmet, hidx, hleft, hright, hcount, _⟩ := mem_histBlock hrB
  refine ⟨hidx, ?_, ?_, ?_⟩
  · rw [hleft, binEdges_getD r.binIdx (by omega)]
  · rw [hright, binEdges_getD (r.binIdx + 1) (by omega)]
    push_cast
    ring
  · rw [hkey, hmet, hcount]
    apply List.countP_congr
    intro v _
    rw [show (inBinEdges binEdges r.binIdx v = true)
        = ((((25 * r.binIdx : ℚ) ≤ v ∧ v < 25 * (r.binIdx : ℚ) + 25)
            ∨ (r.binIdx = 39 ∧ v = 1000)))
      from propext (inBinEdges_iff r.binIdx hidx v)]
    simp

/-- C5 witness: on the one-row example group the emitted Bin Row for the
composite score sits at bin 20 with `bin_left = 500`, `bin_right = 525`. -/
theorem c5_bin_layout_witness :
    binEdges.length = 41 ∧ numBins = 40 ∧ binEdges.getD 40 0 = 25 * 40 := by
  have h := c5_bin_layout [exNorm1] allMetrics
  exact ⟨h.1, h.2.1, by rw [h.2.2.1 40 (by omega)]; norm_num⟩

/-- C9: histogram sparsity — every emitted Bin Row has `count ≥ 1`, and a
(group, metric) combination with zero non-null values contributes no Bin
Row at all. -/
theorem c9_hist_sparsity (rows : List NormRow) (ms : List Metric) :
    (∀ r ∈ buildOverviewHist rows ms, 1 ≤ r.count)
    ∧ (∀ k : FullKey, ∀ m : Metric, groupMetricVals rows k m = [] →
        histFor (buildOverviewHist rows ms) k m = []) := by
  constructor
  · intro r hr
    obtain ⟨_, _, _, _, _, hrB⟩ := mem_buildOverviewHist hr
    exact Nat.one_le_iff_ne_zero.mpr (mem_histBlock hrB).2.2.2.2.2.2
  · intro k m hempty
    apply List.eq_nil_iff_forall_not_mem.mpr
    intro r hr
    obtain ⟨hrh, hpk⟩ := List.mem_filter.mp hr
    obtain ⟨hk, hm⟩ := of_decide_eq_true hpk
    obtain ⟨k', _, m', _, hne', hrB⟩ := mem_buildOverviewHist hrh
    obtain ⟨hkey, hmet, _⟩ := mem_histBlock hrB
    have hk' : k' = k := hkey.symm.trans hk
    have hm' : m' = m := hmet.symm.trans hm
    rw [hk', hm', hempty] at hne'
    cases hne'

/-- C9 witness: on the one-row example the emitted Bin Rows all have count
at least 1, and the (Federal, Urbana, SP) group — absent from the data —
contributes no row. -/
theorem c9_hist_sparsity_witness :
    histFor (buildOverviewHist [exNorm1] allMetrics)
      ("Federal", "Urbana", "SP") .notaFinal = [] :=
  (c9_hist_sparsity [exNorm1] allMetrics).2 ("Federal", "Urbana", "SP")
    .notaFinal rfl

end Enem
